import Mathlib

/-!
Verification of the AutoGitUploader upload workflow (src/AutoGitUploader.py).

The development shallowly embeds the non-UI behaviour of the program:

* `splitextExt` models  os.path.splitext(p)[1]  (CPython genericpath._splitext
  restricted to the extension component, with '/' as the separator).
* `extract_archive` models  WorkerThread.extract_archive : the suffix dispatch
  to the zip routine, the tar routine, or a ValueError.  The actual library
  decompression calls are treated as external outcomes supplied by a `World`.
* `create_github_repo` models  WorkerThread.create_github_repo  over a
  structured model of the HTTP response.
* `runBody` / `run` model  WorkerThread.run  together with
  `WorkerThread.cleanup`, producing the ordered trace of observable events
  (status emissions, progress emissions, the rmtree call, and the terminal
  operation_complete emission).  Every fallible external call (mkdtemp, the
  decompression libraries, the git operations, requests.post, shutil.rmtree)
  is an `Except` outcome recorded in a `World`; the control flow of the
  Python try/except is reproduced exactly.
* `upload_to_github` models the synchronous validation in
  AutoGitUploader.upload_to_github before the worker thread is started.

String lowercasing is modelled by `strToLower` (characterwise ASCII
lowercasing), which agrees with Python str.lower on ASCII; all suffixes of
interest are ASCII.
-/

/-- Index of the last occurrence of `c` in the list, or `-1` (Python rfind). -/
def rfindAux (c : Char) : List Char → Nat → Int → Int
  | [], _, acc => acc
  | x :: xs, i, acc => rfindAux c xs (i + 1) (if x = c then (i : Int) else acc)

/-- Python `p.rfind(c)`: last index of `c` in `p`, or `-1`. -/
def rfindChar (s : List Char) (c : Char) : Int :=
  rfindAux c s 0 (-1)

/-- Model of `os.path.splitext(p)[1]` (posixpath): the extension begins at the
last dot that lies after the last path separator, provided some non-dot
character of the basename precedes it (so ".gitignore" has no extension). -/
def splitextExt (p : String) : String :=
  let cs := p.data
  let sepIndex := rfindChar cs '/'
  let dotIndex := rfindChar cs '.'
  if sepIndex < dotIndex then
    let filenamePart := (cs.take dotIndex.toNat).drop (sepIndex + 1).toNat
    if filenamePart.any (fun ch => ch != '.') then ⟨cs.drop dotIndex.toNat⟩
    else ""
  else ""

/-- Characterwise lowercasing, modelling Python `str.lower` on ASCII. -/
def strToLower (s : String) : String := ⟨s.data.map Char.toLower⟩

/-- The two decompression routines `extract_archive` can dispatch to. -/
inductive ExtractRoutine where
  | zip
  | tar
deriving DecidableEq

/-- Model of `WorkerThread.extract_archive` up to the choice of decompression
routine: the suffix is lowercased, ".zip" routes to `zipfile`, the tar family
routes to `tarfile`, anything else raises
`ValueError("Unsupported archive format: ...")`.  An `Except.error` result
performs no extraction at all. -/
def extract_archive (archive_path : String) : Except String ExtractRoutine :=
  let file_ext := strToLower (splitextExt archive_path)
  if file_ext = ".zip" then Except.ok ExtractRoutine.zip
  else if file_ext = ".tar" ∨ file_ext = ".gz" ∨ file_ext = ".tgz" then
    Except.ok ExtractRoutine.tar
  else Except.error ("Unsupported archive format: " ++ file_ext)

/-- Structured model of the `requests.post` response used by
`create_github_repo`: the status code, the `message` field of the JSON body
when present, the `html_url` field when present, and the raw body text. -/
structure HttpResponse where
  status_code : Nat
  jsonMessage : Option String
  jsonHtmlUrl : Option String
  text : String
deriving DecidableEq

/-- Model of `WorkerThread.create_github_repo` given the response: non-2xx
(other than 200/201) raises with the platform message falling back to the raw
body; otherwise the `html_url` field is returned (a missing field would be a
KeyError). -/
def create_github_repo (r : HttpResponse) : Except String String :=
  if r.status_code = 200 ∨ r.status_code = 201 then
    match r.jsonHtmlUrl with
    | some u => Except.ok u
    | none => Except.error "KeyError: html_url"
  else
    Except.error ("Failed to create GitHub repository: " ++
      (match r.jsonMessage with | some m => m | none => r.text))

/-- The inputs a `WorkerThread` is constructed with. -/
structure Job where
  archive_path : String
  repo_name : String
  github_username : String
  github_token : String
  is_private : Bool
deriving DecidableEq

/-- Outcomes of every external call `WorkerThread.run` makes, fixed ahead of
the run: `tempfile.mkdtemp` (the allocated directory or an error), the two
decompression library calls, the three git repository operations, the
`requests.post` call, `create_remote`/`push`, `shutil.rmtree`, and the
`os.path.exists` check `cleanup` performs on the temporary directory. -/
structure World where
  mkdtempResult : Except String String
  zipExtract : Except String Unit
  tarExtract : Except String Unit
  initResult : Except String Unit
  addResult : Except String Unit
  commitResult : Except String Unit
  postResult : Except String HttpResponse
  createRemoteResult : Except String Unit
  pushResult : Except String Unit
  rmtreeResult : Except String Unit
  tempDirExists : Bool

/-- The status messages `WorkerThread.run` and `WorkerThread.cleanup` emit,
one constructor per `update_status.emit` site, with the dynamic parts as
arguments. -/
inductive Msg where
  | creatingTempDir
  | extracting (path : String)
  | initializing
  | adding
  | committing
  | creatingRepo (name : String)
  | pushing
  | cleaningUp
  | errorMsg (e : String)
  | cleanupWarning (e : String)
deriving DecidableEq

/-- The exact `f`-string text of each status message in the source. -/
def Msg.render : Msg → String
  | .creatingTempDir => "Creating temporary directory..."
  | .extracting path => "Extracting " ++ path ++ " to temporary directory..."
  | .initializing => "Initializing Git repository..."
  | .adding => "Adding files to Git..."
  | .committing => "Committing files..."
  | .creatingRepo name => "Creating GitHub repository: " ++ name ++ "..."
  | .pushing => "Pushing to GitHub..."
  | .cleaningUp => "Cleaning up temporary files..."
  | .errorMsg e => "Error: " ++ e
  | .cleanupWarning e => "Warning: Failed to clean up temporary directory: " ++ e

/-- Observable events of one job run, in order: status emissions, progress
emissions, the `shutil.rmtree` call on the temporary directory, and the
terminal `operation_complete` emission. -/
inductive Event where
  | status (m : Msg)
  | progress (n : Nat)
  | rmtree (dir : String)
  | complete (success : Bool) (message : String)
deriving DecidableEq

/-- Model of `WorkerThread.cleanup`: if a temporary directory was recorded and
still exists, attempt `shutil.rmtree`; a failure is swallowed and turned into
a warning status message. -/
def cleanup (temp_dir : Option String) (w : World) : List Event :=
  match temp_dir with
  | none => []
  | some d =>
    if w.tempDirExists then
      match w.rmtreeResult with
      | Except.ok _ => [Event.rmtree d]
      | Except.error e => [Event.rmtree d, Event.status (Msg.cleanupWarning e)]
    else []

/-- The extraction step of `run`: dispatch on the suffix, then the outcome of
whichever decompression library call was selected. -/
def extractStep (j : Job) (w : World) : Except String Unit :=
  match extract_archive j.archive_path with
  | Except.error e => Except.error e
  | Except.ok ExtractRoutine.zip => w.zipExtract
  | Except.ok ExtractRoutine.tar => w.tarExtract

/-- The repository-creation step of `run`: the `requests.post` outcome, then
`create_github_repo` on its response. -/
def createRepoStep (w : World) : Except String String :=
  match w.postResult with
  | Except.error e => Except.error e
  | Except.ok r => create_github_repo r

/-- Result of the `try`-block body of `WorkerThread.run`: the events emitted
so far, the temporary directory assigned to `self.temp_dir` (if any), and
either the repository URL on full success or the first raised error. -/
structure RunOut where
  events : List Event
  tempDir : Option String
  result : Except String String

/-- Model of the `try`-block of `WorkerThread.run`, statement by statement.
On full success `events` is the whole trace (including the in-`try` cleanup,
the 100% progress emission and the success `operation_complete`); on an error
`events` stops at the point the exception was raised. -/
def runBody (j : Job) (w : World) : RunOut :=
  let e0 := [Event.status Msg.creatingTempDir]
  match w.mkdtempResult with
  | Except.error e => ⟨e0, none, Except.error e⟩
  | Except.ok d =>
    let e1 := e0 ++ [Event.progress 10,
      Event.status (Msg.extracting j.archive_path)]
    match extractStep j w with
    | Except.error e => ⟨e1, some d, Except.error e⟩
    | Except.ok _ =>
      let e2 := e1 ++ [Event.progress 30, Event.status Msg.initializing]
      match w.initResult with
      | Except.error e => ⟨e2, some d, Except.error e⟩
      | Except.ok _ =>
        let e3 := e2 ++ [Event.progress 40, Event.status Msg.adding]
        match w.addResult with
        | Except.error e => ⟨e3, some d, Except.error e⟩
        | Except.ok _ =>
          let e4 := e3 ++ [Event.progress 50, Event.status Msg.committing]
          match w.commitResult with
          | Except.error e => ⟨e4, some d, Except.error e⟩
          | Except.ok _ =>
            let e5 := e4 ++ [Event.progress 60,
              Event.status (Msg.creatingRepo j.repo_name)]
            match createRepoStep w with
            | Except.error e => ⟨e5, some d, Except.error e⟩
            | Except.ok url =>
              let e6 := e5 ++ [Event.progress 70, Event.status Msg.pushing]
              match w.createRemoteResult with
              | Except.error e => ⟨e6, some d, Except.error e⟩
              | Except.ok _ =>
                match w.pushResult with
                | Except.error e => ⟨e6, some d, Except.error e⟩
                | Except.ok _ =>
                  ⟨e6 ++ [Event.progress 90, Event.status Msg.cleaningUp]
                    ++ cleanup (some d) w
                    ++ [Event.progress 100,
                      Event.complete true ("Successfully uploaded to " ++ url)],
                   some d, Except.ok url⟩

/-- Model of `WorkerThread.run`: the `try` body, and on an exception the
`except` handler — an error status, the failure `operation_complete`, and
only then the cleanup call. -/
def run (j : Job) (w : World) : List Event :=
  match runBody j w with
  | ⟨evs, _, Except.ok _⟩ => evs
  | ⟨evs, td, Except.error e⟩ =>
    evs ++ [Event.status (Msg.errorMsg e), Event.complete false e]
      ++ cleanup td w

/-- The first error raised inside the `try` body, if any. -/
def stepError (j : Job) (w : World) : Option String :=
  match (runBody j w).result with
  | Except.error e => some e
  | Except.ok _ => none

/-- The progress percentages of a trace, in emission order. -/
def progressList (t : List Event) : List Nat :=
  t.filterMap fun e => match e with | Event.progress n => some n | _ => none

/-- The `operation_complete` emissions of a trace, in order. -/
def completions (t : List Event) : List (Bool × String) :=
  t.filterMap fun e => match e with | Event.complete b m => some (b, m) | _ => none

/-- Number of cleanup-warning status lines in a trace. -/
def warningCount (t : List Event) : Nat :=
  (t.filter fun e => match e with
    | Event.status (Msg.cleanupWarning _) => true
    | _ => false).length

/-- Whether an event is the `shutil.rmtree` call. -/
def isRmtreeEv : Event → Bool
  | Event.rmtree _ => true
  | _ => false

/-- Whether an event is a failure `operation_complete` emission. -/
def isFailureEv : Event → Bool
  | Event.complete false _ => true
  | _ => false

/-- Whether an event is any `operation_complete` emission. -/
def isCompleteEv : Event → Bool
  | Event.complete _ _ => true
  | _ => false

/-- Index of the first `rmtree` event of a trace. -/
def rmtreeIdx (t : List Event) : Option Nat := t.findIdx? isRmtreeEv

/-- Index of the first failure report of a trace. -/
def failureIdx (t : List Event) : Option Nat := t.findIdx? isFailureEv

/-- When a trace contains both a cleanup action and a failure report, does the
cleanup come first?  Vacuously true when either is absent. -/
def cleanupBeforeReport (t : List Event) : Bool :=
  match rmtreeIdx t, failureIdx t with
  | some r, some f => decide (r < f)
  | _, _ => true

/-- The states of the spec's upload state machine. -/
inductive St where
  | Idle
  | Extracting
  | Initializing
  | Staging
  | Committing
  | CreatingRemote
  | Pushing
  | CleaningUp
  | Succeeded
  | Failed
deriving DecidableEq

/-- Position of each state in the spec's forward order; the two terminal
states share the last position. -/
def stOrd : St → Nat
  | St.Idle => 0
  | St.Extracting => 1
  | St.Initializing => 2
  | St.Staging => 3
  | St.Committing => 4
  | St.CreatingRemote => 5
  | St.Pushing => 6
  | St.CleaningUp => 7
  | St.Succeeded => 8
  | St.Failed => 8

/-- The state a trace event witnesses, if any: each step's opening status
message witnesses that step's state (the temporary-directory allocation still
counts as `Idle`), the `rmtree` call witnesses `CleaningUp`, and the terminal
emission witnesses `Succeeded` or `Failed`. -/
def eventState : Event → Option St
  | Event.status m =>
    match m with
    | Msg.creatingTempDir => some St.Idle
    | Msg.extracting _ => some St.Extracting
    | Msg.initializing => some St.Initializing
    | Msg.adding => some St.Staging
    | Msg.committing => some St.Committing
    | Msg.creatingRepo _ => some St.CreatingRemote
    | Msg.pushing => some St.Pushing
    | Msg.cleaningUp => some St.CleaningUp
    | Msg.errorMsg _ => none
    | Msg.cleanupWarning _ => none
  | Event.progress _ => none
  | Event.rmtree _ => some St.CleaningUp
  | Event.complete true _ => some St.Succeeded
  | Event.complete false _ => some St.Failed

/-- Collapse adjacent duplicates. -/
def dedupAdj : List St → List St
  | [] => []
  | [a] => [a]
  | a :: b :: rest =>
    if a = b then dedupAdj (b :: rest) else a :: dedupAdj (b :: rest)

/-- The state sequence a trace passes through. -/
def stateTrace (t : List Event) : List St :=
  dedupAdj (t.filterMap eventState)

/-- Whether a state sequence only ever moves forward in the spec's order. -/
def forwardOnlyB : List St → Bool
  | [] => true
  | [_] => true
  | a :: b :: rest => decide (stOrd a < stOrd b) && forwardOnlyB (b :: rest)

/-- The full state sequence of a successful run. -/
def allStates : List St :=
  [St.Idle, St.Extracting, St.Initializing, St.Staging, St.Committing,
   St.CreatingRemote, St.Pushing, St.CleaningUp, St.Succeeded]

/-- The form fields read by `AutoGitUploader.upload_to_github`. -/
structure Form where
  archive_path : String
  repo_name : String
  github_username : String
  github_token : String
  is_private : Bool
deriving DecidableEq

/-- Outcome of a form submission: a synchronous warning-dialog rejection, or
a started `WorkerThread`. -/
inductive SubmitResult where
  | rejected (warning : String)
  | started (j : Job)
deriving DecidableEq

/-- Model of the validation prefix of `AutoGitUploader.upload_to_github`:
each check returns synchronously with its own warning message before any
worker is constructed; only when all pass is the worker started.
`pathExists` is the `os.path.exists(archive_path)` outcome. -/
def upload_to_github (f : Form) (pathExists : Bool) : SubmitResult :=
  if f.archive_path = "" then
    SubmitResult.rejected "Please select an archive file."
  else if pathExists = false then
    SubmitResult.rejected "Selected archive file does not exist."
  else if f.repo_name = "" then
    SubmitResult.rejected "Please enter a repository name."
  else if f.github_username = "" then
    SubmitResult.rejected "Please enter your GitHub username."
  else if f.github_token = "" then
    SubmitResult.rejected "Please enter your GitHub token."
  else
    SubmitResult.started
      ⟨f.archive_path, f.repo_name, f.github_username, f.github_token,
       f.is_private⟩

/-- The five validation warning messages, in check order. -/
def validationMessages : List String :=
  ["Please select an archive file.",
   "Selected archive file does not exist.",
   "Please enter a repository name.",
   "Please enter your GitHub username.",
   "Please enter your GitHub token."]

/-- The events the `try` body has emitted when its `k`-th fallible call
raises (k = 0: mkdtemp, 1: extraction, 2: init, 3: add, 4: commit,
5: repository creation, 6: create_remote or push). -/
def bodyPrefix (j : Job) (k : Nat) : List Event :=
  [Event.status Msg.creatingTempDir]
  ++ (if 1 ≤ k then
        [Event.progress 10, Event.status (Msg.extracting j.archive_path)]
      else [])
  ++ (if 2 ≤ k then [Event.progress 30, Event.status Msg.initializing] else [])
  ++ (if 3 ≤ k then [Event.progress 40, Event.status Msg.adding] else [])
  ++ (if 4 ≤ k then [Event.progress 50, Event.status Msg.committing] else [])
  ++ (if 5 ≤ k then
        [Event.progress 60, Event.status (Msg.creatingRepo j.repo_name)]
      else [])
  ++ (if 6 ≤ k then [Event.progress 70, Event.status Msg.pushing] else [])

/-- Concrete inputs used below: a zip job against a remote that answers 201. -/
def respC : HttpResponse :=
  ⟨201, none, some "https://example.test/user/myproj", "body"⟩

/-- A concrete job submission. -/
def jobC : Job := ⟨"project.zip", "myproj", "user", "tok", false⟩

/-- A world in which every external call succeeds. -/
def worldOkC : World :=
  ⟨Except.ok "/tmp/wd", Except.ok (), Except.ok (), Except.ok (),
   Except.ok (), Except.ok (), Except.ok respC, Except.ok (), Except.ok (),
   Except.ok (), true⟩

/-- A world in which the zip decompression call raises. -/
def worldZipFailC : World :=
  ⟨Except.ok "/tmp/wd", Except.error "boom", Except.ok (), Except.ok (),
   Except.ok (), Except.ok (), Except.ok respC, Except.ok (), Except.ok (),
   Except.ok (), true⟩

/-- A world in which the commit call raises. -/
def worldCommitFailC : World :=
  ⟨Except.ok "/tmp/wd", Except.ok (), Except.ok (), Except.ok (),
   Except.ok (), Except.error "cfail", Except.ok respC, Except.ok (),
   Except.ok (), Except.ok (), true⟩

/-- A world in which everything succeeds except `shutil.rmtree`. -/
def worldRmFailC : World :=
  ⟨Except.ok "/tmp/wd", Except.ok (), Except.ok (), Except.ok (),
   Except.ok (), Except.ok (), Except.ok respC, Except.ok (), Except.ok (),
   Except.error "locked", true⟩

/-- `w` with the `shutil.rmtree` outcome replaced by success. -/
def setRmtreeOk (w : World) : World :=
  ⟨w.mkdtempResult, w.zipExtract, w.tarExtract, w.initResult, w.addResult,
   w.commitResult, w.postResult, w.createRemoteResult, w.pushResult,
   Except.ok (), w.tempDirExists⟩

lemma run_ok_shape (j : Job) (w : World) (h : stepError j w = none) :
    ∃ d url, w.mkdtempResult = Except.ok d ∧
      createRepoStep w = Except.ok url ∧
      run j w = bodyPrefix j 6
        ++ [Event.progress 90, Event.status Msg.cleaningUp]
        ++ cleanup (some d) w
        ++ [Event.progress 100,
            Event.complete true ("Successfully uploaded to " ++ url)] := by
  unfold stepError at h
  cases hmd : w.mkdtempResult with
  | error e => simp [runBody, hmd] at h
  | ok d =>
    cases hex : extractStep j w with
    | error e => simp [runBody, hmd, hex] at h
    | ok v1 =>
      cases hin : w.initResult with
      | error e => simp [runBody, hmd, hex, hin] at h
      | ok v2 =>
        cases had : w.addResult with
        | error e => simp [runBody, hmd, hex, hin, had] at h
        | ok v3 =>
          cases hco : w.commitResult with
          | error e => simp [runBody, hmd, hex, hin, had, hco] at h
          | ok v4 =>
            cases hcr : createRepoStep w with
            | error e => simp [runBody, hmd, hex, hin, had, hco, hcr] at h
            | ok url =>
              cases hre : w.createRemoteResult with
              | error e =>
                simp [runBody, hmd, hex, hin, had, hco, hcr, hre] at h
              | ok v5 =>
                cases hpu : w.pushResult with
                | error e =>
                  simp [runBody, hmd, hex, hin, had, hco, hcr, hre, hpu] at h
                | ok v6 =>
                  refine ⟨d, url, rfl, rfl, ?_⟩
                  simp [run, runBody, hmd, hex, hin, had, hco, hcr, hre, hpu,
                    bodyPrefix]

lemma run_error_shape (j : Job) (w : World) (e : String)
    (h : stepError j w = some e) :
    (w.mkdtempResult = Except.error e
      ∧ run j w = bodyPrefix j 0
        ++ [Event.status (Msg.errorMsg e), Event.complete false e]
      ∧ (runBody j w).tempDir = none)
  ∨ (∃ d k, w.mkdtempResult = Except.ok d ∧ 1 ≤ k ∧ k ≤ 6 ∧
      (runBody j w).tempDir = some d ∧
      run j w = bodyPrefix j k
        ++ [Event.status (Msg.errorMsg e), Event.complete false e]
        ++ cleanup (some d) w) := by
  unfold stepError at h
  cases hmd : w.mkdtempResult with
  | error e0 =>
    left
    simp [runBody, hmd] at h
    subst h
    refine ⟨rfl, ?_, ?_⟩
    · simp [run, runBody, hmd, cleanup, bodyPrefix]
    · simp [runBody, hmd]
  | ok d =>
    cases hex : extractStep j w with
    | error e0 =>
      right
      simp [runBody, hmd, hex] at h
      subst h
      exact ⟨d, 1, rfl, by norm_num, by norm_num,
        by simp [runBody, hmd, hex],
        by simp [run, runBody, hmd, hex, bodyPrefix]⟩
    | ok v1 =>
      cases hin : w.initResult with
      | error e0 =>
        right
        simp [runBody, hmd, hex, hin] at h
        subst h
        exact ⟨d, 2, rfl, by norm_num, by norm_num,
          by simp [runBody, hmd, hex, hin],
          by simp [run, runBody, hmd, hex, hin, bodyPrefix]⟩
      | ok v2 =>
        cases had : w.addResult with
        | error e0 =>
          right
          simp [runBody, hmd, hex, hin, had] at h
          subst h
          exact ⟨d, 3, rfl, by norm_num, by norm_num,
            by simp [runBody, hmd, hex, hin, had],
            by simp [run, runBody, hmd, hex, hin, had, bodyPrefix]⟩
        | ok v3 =>
          cases hco : w.commitResult with
          | error e0 =>
            right
            simp [runBody, hmd, hex, hin, had, hco] at h
            subst h
            exact ⟨d, 4, rfl, by norm_num, by norm_num,
              by simp [runBody, hmd, hex, hin, had, hco],
              by simp [run, runBody, hmd, hex, hin, had, hco, bodyPrefix]⟩
          | ok v4 =>
            cases hcr : createRepoStep w with
            | error e0 =>
              right
              simp [runBody, hmd, hex, hin, had, hco, hcr] at h
              subst h
              exact ⟨d, 5, rfl, by norm_num, by norm_num,
                by simp [runBody, hmd, hex, hin, had, hco, hcr],
                by simp [run, runBody, hmd, hex, hin, had, hco, hcr,
                  bodyPrefix]⟩
            | ok url =>
              cases hre : w.createRemoteResult with
              | error e0 =>
                right
                simp [runBody, hmd, hex, hin, had, hco, hcr, hre] at h
                subst h
                exact ⟨d, 6, rfl, by norm_num, by norm_num,
                  by simp [runBody, hmd, hex, hin, had, hco, hcr, hre],
                  by simp [run, runBody, hmd, hex, hin, had, hco, hcr, hre,
                    bodyPrefix]⟩
              | ok v5 =>
                cases hpu : w.pushResult with
                | error e0 =>
                  right
                  simp [runBody, hmd, hex, hin, had, hco, hcr, hre, hpu] at h
                  subst h
                  exact ⟨d, 6, rfl, by norm_num, by norm_num,
                    by simp [runBody, hmd, hex, hin, had, hco, hcr, hre, hpu],
                    by simp [run, runBody, hmd, hex, hin, had, hco, hcr, hre,
                      hpu, bodyPrefix]⟩
                | ok v6 =>
                  simp [runBody, hmd, hex, hin, had, hco, hcr, hre, hpu] at h

lemma progressList_cleanup (td : Option String) (w : World) :
    progressList (cleanup td w) = [] := by
  cases td with
  | none => rfl
  | some d =>
    cases hex : w.tempDirExists with
    | false => simp [cleanup, hex, progressList]
    | true =>
      cases hrm : w.rmtreeResult <;> simp [cleanup, hex, hrm, progressList]

lemma completions_cleanup (td : Option String) (w : World) :
    completions (cleanup td w) = [] := by
  cases td with
  | none => rfl
  | some d =>
    cases hex : w.tempDirExists with
    | false => simp [cleanup, hex, completions]
    | true =>
      cases hrm : w.rmtreeResult <;> simp [cleanup, hex, hrm, completions]

lemma cleanup_states (td : Option String) (w : World) :
    (cleanup td w).filterMap eventState = []
  ∨ (cleanup td w).filterMap eventState = [St.CleaningUp] := by
  cases td with
  | none => exact Or.inl rfl
  | some d =>
    cases hex : w.tempDirExists with
    | false => exact Or.inl (by simp [cleanup, hex])
    | true =>
      cases hrm : w.rmtreeResult with
      | ok v => exact Or.inr (by simp [cleanup, hex, hrm, eventState])
      | error e => exact Or.inr (by simp [cleanup, hex, hrm, eventState])

lemma cleanup_mem_rmtree (d : String) (w : World)
    (hex : w.tempDirExists = true) :
    Event.rmtree d ∈ cleanup (some d) w := by
  unfold cleanup
  rw [hex]
  cases w.rmtreeResult <;> simp

lemma bodyPrefix_no_rmtree_complete (j : Job) (k : Nat) :
    (bodyPrefix j k).all
      (fun ev => !(isRmtreeEv ev || isCompleteEv ev)) = true := by
  by_cases h1 : 1 ≤ k <;> by_cases h2 : 2 ≤ k <;> by_cases h3 : 3 ≤ k <;>
    by_cases h4 : 4 ≤ k <;> by_cases h5 : 5 ≤ k <;> by_cases h6 : 6 ≤ k <;>
    simp [bodyPrefix, h1, h2, h3, h4, h5, h6, isRmtreeEv, isCompleteEv]

lemma completions_bodyPrefix (j : Job) (k : Nat) :
    completions (bodyPrefix j k) = [] := by
  by_cases h1 : 1 ≤ k <;> by_cases h2 : 2 ≤ k <;> by_cases h3 : 3 ≤ k <;>
    by_cases h4 : 4 ≤ k <;> by_cases h5 : 5 ≤ k <;> by_cases h6 : 6 ≤ k <;>
    simp [bodyPrefix, h1, h2, h3, h4, h5, h6, completions]

lemma warningCount_cleanup_error (d : String) (w : World) (e : String)
    (hex : w.tempDirExists = true) (hrm : w.rmtreeResult = Except.error e) :
    warningCount (cleanup (some d) w) = 1 := by
  simp [cleanup, hex, hrm, warningCount]

lemma warningCount_cleanup_okrm (d : String) (w : World) (v : Unit)
    (hrm : w.rmtreeResult = Except.ok v) :
    warningCount (cleanup (some d) w) = 0 := by
  cases hex : w.tempDirExists <;> simp [cleanup, hex, hrm, warningCount]

lemma warningCount_bodyPrefix (j : Job) (k : Nat) :
    warningCount (bodyPrefix j k) = 0 := by
  by_cases h1 : 1 ≤ k <;> by_cases h2 : 2 ≤ k <;> by_cases h3 : 3 ≤ k <;>
    by_cases h4 : 4 ≤ k <;> by_cases h5 : 5 ≤ k <;> by_cases h6 : 6 ≤ k <;>
    simp [bodyPrefix, h1, h2, h3, h4, h5, h6, warningCount]

/-- C3: the repository-creation call succeeds exactly when the HTTP status is
200 or 201, in which case the response's html_url field is returned; on any
other status it fails with the platform's structured message field, falling
back to the raw HTTP body when no structured message is present (the code
prefixes the fixed text "Failed to create GitHub repository: "). -/
theorem create_repo_success_iff (r : HttpResponse) (u : String)
    (hu : r.jsonHtmlUrl = some u) :
    ((∃ v, create_github_repo r = Except.ok v) ↔
      (r.status_code = 200 ∨ r.status_code = 201))
  ∧ ((r.status_code = 200 ∨ r.status_code = 201) →
      create_github_repo r = Except.ok u)
  ∧ (¬(r.status_code = 200 ∨ r.status_code = 201) →
      create_github_repo r =
        Except.error ("Failed to create GitHub repository: " ++
          (match r.jsonMessage with | some m => m | none => r.text))) := by
  by_cases hs : r.status_code = 200 ∨ r.status_code = 201 <;>
    simp [create_github_repo, hs, hu]

/-- C3 witness: a 201 response yields its html_url; a 422 response fails with
the structured message. -/
theorem create_repo_success_iff_witness :
    create_github_repo respC =
      Except.ok "https://example.test/user/myproj" :=
  (create_repo_success_iff respC "https://example.test/user/myproj" rfl).2.1
    (Or.inr rfl)

/-- C4: an archive path whose (lowercased) filename suffix is not one of
zip/tar/gz/tgz makes extract fail with the format error naming the
unsupported extension; the `Except.error` result selects no decompression
routine, so no filesystem write is performed. -/
theorem unsupported_suffix_format_error (p : String)
    (h : strToLower (splitextExt p) ∉
      ([".zip", ".tar", ".gz", ".tgz"] : List String)) :
    extract_archive p =
      Except.error ("Unsupported archive format: "
        ++ strToLower (splitextExt p)) := by
  simp only [List.mem_cons, List.not_mem_nil, or_false, not_or] at h
  obtain ⟨h1, h2, h3, h4⟩ := h
  simp [extract_archive, h1, h2, h3, h4]

/-- C4 witness: ".rar" is rejected with the format error naming ".rar". -/
theorem unsupported_suffix_format_error_witness :
    extract_archive "a.rar" =
      Except.error ("Unsupported archive format: "
        ++ strToLower (splitextExt "a.rar")) :=
  unsupported_suffix_format_error "a.rar" (by decide)

/-- C5: handling is determined strictly by the filename suffix -- a zip-style
suffix routes to the zip-decompression routine and each tar-family suffix
(.tar, .gz, .tgz) routes to the tar-decompression routine. -/
theorem suffix_dispatch_routes (p : String) :
    (strToLower (splitextExt p) = ".zip" →
      extract_archive p = Except.ok ExtractRoutine.zip)
  ∧ ((strToLower (splitextExt p) = ".tar" ∨ strToLower (splitextExt p) = ".gz"
        ∨ strToLower (splitextExt p) = ".tgz") →
      extract_archive p = Except.ok ExtractRoutine.tar) := by
  constructor
  · intro h
    simp [extract_archive, h]
  · intro h
    have hz : ¬ strToLower (splitextExt p) = ".zip" := by
      rcases h with h | h | h <;> rw [h] <;> decide
    simp [extract_archive, hz, h]

/-- C5 witness: "b.tgz" routes to the tar routine. -/
theorem suffix_dispatch_routes_witness :
    extract_archive "b.tgz" = Except.ok ExtractRoutine.tar :=
  (suffix_dispatch_routes "b.tgz").2 (by decide)

/-- C10 (implicit): the suffix is lowercased before comparison, so any two
paths whose lowercased suffixes agree -- in particular an uppercase or
mixed-case variant of a supported suffix and its lowercase form -- are routed
identically by extract. -/
theorem suffix_case_insensitive (p q : String)
    (h : strToLower (splitextExt p) = strToLower (splitextExt q)) :
    extract_archive p = extract_archive q := by
  unfold extract_archive
  rw [h]

/-- C10 witness: "a.ZIP" is routed exactly like "a.zip" (to the zip
routine). -/
theorem suffix_case_insensitive_witness :
    extract_archive "a.ZIP" = extract_archive "a.zip" :=
  suffix_case_insensitive "a.ZIP" "a.zip" (by decide)

/-- C9: a submission with a missing archive path, a nonexistent archive file,
a missing repository name, a missing username or a missing token is rejected
synchronously -- no worker is started -- and each case that reaches its check
gets its own message; the five messages are pairwise distinct. -/
theorem submission_validation (f : Form) (ex : Bool) :
    ((f.archive_path = "" ∨ ex = false ∨ f.repo_name = ""
        ∨ f.github_username = "" ∨ f.github_token = "") →
      ∀ j, upload_to_github f ex ≠ SubmitResult.started j)
  ∧ (f.archive_path = "" →
      upload_to_github f ex =
        SubmitResult.rejected "Please select an archive file.")
  ∧ (f.archive_path ≠ "" → ex = false →
      upload_to_github f ex =
        SubmitResult.rejected "Selected archive file does not exist.")
  ∧ (f.archive_path ≠ "" → ex = true → f.repo_name = "" →
      upload_to_github f ex =
        SubmitResult.rejected "Please enter a repository name.")
  ∧ (f.archive_path ≠ "" → ex = true → f.repo_name ≠ "" →
      f.github_username = "" →
      upload_to_github f ex =
        SubmitResult.rejected "Please enter your GitHub username.")
  ∧ (f.archive_path ≠ "" → ex = true → f.repo_name ≠ "" →
      f.github_username ≠ "" → f.github_token = "" →
      upload_to_github f ex =
        SubmitResult.rejected "Please enter your GitHub token.")
  ∧ validationMessages.Nodup := by
  refine ⟨?_, ?_, ?_, ?_, ?_, ?_, by decide⟩
  · intro hbad jx
    unfold upload_to_github
    split_ifs with g1 g2 g3 g4 g5
    · simp
    · simp
    · simp
    · simp
    · simp
    · intro hst
      rcases hbad with hb | hb | hb | hb | hb
      · exact g1 hb
      · rw [hb] at g2 ; exact g2 rfl
      · exact g3 hb
      · exact g4 hb
      · exact g5 hb
  · intro h1
    simp [upload_to_github, h1]
  · intro h1 h2
    simp [upload_to_github, h1, h2]
  · intro h1 h2 h3
    simp [upload_to_github, h1, h2, h3]
  · intro h1 h2 h3 h4
    simp [upload_to_github, h1, h2, h3, h4]
  · intro h1 h2 h3 h4 h5
    simp [upload_to_github, h1, h2, h3, h4, h5]

/-- C9 witness: an empty archive path is rejected with its specific
message. -/
theorem submission_validation_witness :
    upload_to_github ⟨"", "myproj", "user", "tok", false⟩ true =
      SubmitResult.rejected "Please select an archive file." :=
  (submission_validation ⟨"", "myproj", "user", "tok", false⟩ true).2.1 rfl

/-- C1 counterexample: with the zip-decompression call raising "boom", the
failure `operation_complete` is emitted at index 4 and the rmtree cleanup
only happens afterwards at index 5, so the working directory is not cleaned
up before the failure is reported. -/
theorem failure_reported_before_cleanup :
    failureIdx (run jobC worldZipFailC) = some 4
  ∧ rmtreeIdx (run jobC worldZipFailC) = some 5
  ∧ cleanupBeforeReport (run jobC worldZipFailC) = false := by decide

/-- C2 counterexample: with the commit call raising, the run passes through
Failed and only afterwards through CleaningUp, so the state sequence is
neither forward-only in the spec's order nor of the shape "... CleaningUp
then Failed". -/
theorem state_failed_then_cleanup :
    stateTrace (run jobC worldCommitFailC) =
      [St.Idle, St.Extracting, St.Initializing, St.Staging, St.Committing,
       St.Failed, St.CleaningUp]
  ∧ forwardOnlyB (stateTrace (run jobC worldCommitFailC)) = false := by decide

lemma progressList_append (a b : List Event) :
    progressList (a ++ b) = progressList a ++ progressList b := by
  simp [progressList]

lemma completions_append (a b : List Event) :
    completions (a ++ b) = completions a ++ completions b := by
  simp [completions]

lemma warningCount_append (a b : List Event) :
    warningCount (a ++ b) = warningCount a + warningCount b := by
  simp [warningCount]

lemma filterMap_mid_cleaningUp :
    List.filterMap eventState
      [Event.progress 90, Event.status Msg.cleaningUp] = [St.CleaningUp] := rfl

lemma filterMap_tail_success (m : String) :
    List.filterMap eventState
      [Event.progress 100, Event.complete true m] = [St.Succeeded] := rfl

lemma filterMap_errpair (e : String) :
    List.filterMap eventState
      [Event.status (Msg.errorMsg e), Event.complete false e] =
      [St.Failed] := rfl

/-- C6: on a run in which every step succeeds, the emitted progress sequence
is exactly the per-step markers 10, 30, 40, 50, 60, 70, 90, 100 -- hence
monotonically non-decreasing and ending at 100. -/
theorem success_progress_sequence (j : Job) (w : World)
    (h : stepError j w = none) :
    progressList (run j w) = [10, 30, 40, 50, 60, 70, 90, 100]
  ∧ List.Chain' (· ≤ ·) (progressList (run j w))
  ∧ (progressList (run j w)).getLast? = some 100 := by
  obtain ⟨d, url, hmd, hcr, hrun⟩ := run_ok_shape j w h
  have h1 : progressList (bodyPrefix j 6) = [10, 30, 40, 50, 60, 70] := by
    simp [bodyPrefix, progressList]
  have hp : progressList (run j w) = [10, 30, 40, 50, 60, 70, 90, 100] := by
    rw [hrun, progressList_append, progressList_append, progressList_append,
      progressList_cleanup, h1]
    rfl
  refine ⟨hp, ?_, ?_⟩
  · rw [hp]
    norm_num [List.chain'_cons]
  · rw [hp]
    rfl

/-- C6 witness: the all-success world produces that exact progress
sequence. -/
theorem success_progress_sequence_witness :
    progressList (run jobC worldOkC) = [10, 30, 40, 50, 60, 70, 90, 100] :=
  (success_progress_sequence jobC worldOkC rfl).1

/-- C8: on a run in which every step succeeds, the terminal message is the
string "Successfully uploaded to " followed by the html_url returned by the
repository-creation API. -/
theorem success_terminal_message (j : Job) (w : World) (r : HttpResponse)
    (u : String) (hpo : w.postResult = Except.ok r)
    (hu : r.jsonHtmlUrl = some u) (h : stepError j w = none) :
    completions (run j w) = [(true, "Successfully uploaded to " ++ u)] := by
  obtain ⟨d, url, hmd, hcr, hrun⟩ := run_ok_shape j w h
  have hstep : createRepoStep w = create_github_repo r := by
    simp [createRepoStep, hpo]
  rw [hstep] at hcr
  have hurl : u = url := by
    by_cases hs : r.status_code = 200 ∨ r.status_code = 201
    · simp [create_github_repo, hs, hu] at hcr
      exact hcr
    · simp [create_github_repo, hs] at hcr
  subst hurl
  rw [hrun, completions_append, completions_append, completions_append,
    completions_bodyPrefix, completions_cleanup]
  rfl

/-- C8 witness: the all-success world ends with exactly the success message
carrying the remote URL. -/
theorem success_terminal_message_witness :
    completions (run jobC worldOkC) =
      [(true, "Successfully uploaded to " ++ "https://example.test/user/myproj")] :=
  success_terminal_message jobC worldOkC respC
    "https://example.test/user/myproj" rfl rfl rfl

/-- C1 (amended): when some step raises, the reported failure message equals
the exception's textual description, and the ephemeral working directory is
cleaned up best-effort AFTER the terminal failure is reported -- every event
before the failure report is neither a cleanup action nor a terminal report,
and when a directory was allocated and still exists an rmtree on it does
occur in the trace. -/
theorem failure_message_and_late_cleanup (j : Job) (w : World) (e : String)
    (h : stepError j w = some e) :
    completions (run j w) = [(false, e)]
  ∧ (∃ pre, run j w = pre
        ++ [Event.status (Msg.errorMsg e), Event.complete false e]
        ++ cleanup (runBody j w).tempDir w
      ∧ pre.all (fun ev => !(isRmtreeEv ev || isCompleteEv ev)) = true)
  ∧ (∀ d, (runBody j w).tempDir = some d → w.tempDirExists = true →
      Event.rmtree d ∈ run j w) := by
  rcases run_error_shape j w e h with ⟨hmd0, hrun, htd⟩ |
    ⟨d, k, hmd, hk1, hk6, htd, hrun⟩
  · refine ⟨?_, ⟨bodyPrefix j 0, ?_, bodyPrefix_no_rmtree_complete j 0⟩, ?_⟩
    · rw [hrun, completions_append, completions_bodyPrefix]
      rfl
    · rw [htd, hrun]
      simp [cleanup]
    · intro d2 hd2 hex2
      rw [htd] at hd2
      exact absurd hd2 (by simp)
  · refine ⟨?_, ⟨bodyPrefix j k, ?_, bodyPrefix_no_rmtree_complete j k⟩, ?_⟩
    · rw [hrun, completions_append, completions_append,
        completions_bodyPrefix, completions_cleanup]
      rfl
    · rw [htd]
      exact hrun
    · intro d2 hd2 hex2
      rw [htd] at hd2
      have hdd : d = d2 := by injection hd2
      subst hdd
      rw [hrun]
      exact List.mem_append.mpr (Or.inr (cleanup_mem_rmtree d w hex2))

/-- C1 witness: in the concrete zip-failure world the failure message is
"boom" and the rmtree on the working directory appears in the trace. -/
theorem failure_message_and_late_cleanup_witness :
    completions (run jobC worldZipFailC) = [(false, "boom")] :=
  (failure_message_and_late_cleanup jobC worldZipFailC "boom" (by decide)).1

/-- C2 (amended): the run's states advance forward-only and linearly through
Idle, Extracting, Initializing, Staging, Committing, CreatingRemote, Pushing,
CleaningUp, Succeeded when every step succeeds; an error in any step aborts
all subsequent steps and transitions directly to Failed, with the cleanup
state (if the directory deletion runs at all) entered only AFTER Failed; no
state is ever visited twice (no retries). -/
theorem state_machine_shape (j : Job) (w : World) :
    (stepError j w = none → stateTrace (run j w) = allStates)
  ∧ (∀ e, stepError j w = some e →
      ∃ k, k ≤ 6 ∧
        (stateTrace (run j w) = allStates.take (k + 1) ++ [St.Failed]
         ∨ stateTrace (run j w) =
             allStates.take (k + 1) ++ [St.Failed, St.CleaningUp]))
  ∧ (stateTrace (run j w)).Nodup := by
  have hok : stepError j w = none → stateTrace (run j w) = allStates := by
    intro h
    obtain ⟨d, url, hmd, hcr, hrun⟩ := run_ok_shape j w h
    have h6 : (bodyPrefix j 6).filterMap eventState =
        [St.Idle, St.Extracting, St.Initializing, St.Staging, St.Committing,
         St.CreatingRemote, St.Pushing] := by
      simp [bodyPrefix, eventState]
    unfold stateTrace
    rw [hrun, List.filterMap_append, List.filterMap_append,
      List.filterMap_append, h6, filterMap_mid_cleaningUp,
      filterMap_tail_success]
    rcases cleanup_states (some d) w with hc | hc <;> rw [hc] <;> decide
  have herr : ∀ e, stepError j w = some e →
      ∃ k, k ≤ 6 ∧
        (stateTrace (run j w) = allStates.take (k + 1) ++ [St.Failed]
         ∨ stateTrace (run j w) =
             allStates.take (k + 1) ++ [St.Failed, St.CleaningUp]) := by
    intro e h
    rcases run_error_shape j w e h with ⟨hmd0, hrun, htd⟩ |
      ⟨d, k, hmd, hk1, hk6, htd, hrun⟩
    · refine ⟨0, by norm_num, Or.inl ?_⟩
      unfold stateTrace
      rw [hrun, List.filterMap_append, filterMap_errpair]
      have h0 : (bodyPrefix j 0).filterMap eventState = [St.Idle] := by
        simp [bodyPrefix, eventState]
      rw [h0]
      decide
    · interval_cases k
      · rcases cleanup_states (some d) w with hc | hc
        · refine ⟨1, by norm_num, Or.inl ?_⟩
          unfold stateTrace
          rw [hrun, List.filterMap_append, List.filterMap_append,
            filterMap_errpair, hc]
          have hb : (bodyPrefix j 1).filterMap eventState = [St.Idle, St.Extracting] := by
            simp [bodyPrefix, eventState]
          rw [hb]
          decide
        · refine ⟨1, by norm_num, Or.inr ?_⟩
          unfold stateTrace
          rw [hrun, List.filterMap_append, List.filterMap_append,
            filterMap_errpair, hc]
          have hb : (bodyPrefix j 1).filterMap eventState = [St.Idle, St.Extracting] := by
            simp [bodyPrefix, eventState]
          rw [hb]
          decide
      · rcases cleanup_states (some d) w with hc | hc
        · refine ⟨2, by norm_num, Or.inl ?_⟩
          unfold stateTrace
          rw [hrun, List.filterMap_append, List.filterMap_append,
            filterMap_errpair, hc]
          have hb : (bodyPrefix j 2).filterMap eventState = [St.Idle, St.Extracting, St.Initializing] := by
            simp [bodyPrefix, eventState]
          rw [hb]
          decide
        · refine ⟨2, by norm_num, Or.inr ?_⟩
          unfold stateTrace
          rw [hrun, List.filterMap_append, List.filterMap_append,
            filterMap_errpair, hc]
          have hb : (bodyPrefix j 2).filterMap eventState = [St.Idle, St.Extracting, St.Initializing] := by
            simp [bodyPrefix, eventState]
          rw [hb]
          decide
      · rcases cleanup_states (some d) w with hc | hc
        · refine ⟨3, by norm_num, Or.inl ?_⟩
          unfold stateTrace
          rw [hrun, List.filterMap_append, List.filterMap_append,
            filterMap_errpair, hc]
          have hb : (bodyPrefix j 3).filterMap eventState = [St.Idle, St.Extracting, St.Initializing, St.Staging] := by
            simp [bodyPrefix, eventState]
          rw [hb]
          decide
        · refine ⟨3, by norm_num, Or.inr ?_⟩
          unfold stateTrace
          rw [hrun, List.filterMap_append, List.filterMap_append,
            filterMap_errpair, hc]
          have hb : (bodyPrefix j 3).filterMap eventState = [St.Idle, St.Extracting, St.Initializing, St.Staging] := by
            simp [bodyPrefix, eventState]
          rw [hb]
          decide
      · rcases cleanup_states (some d) w with hc | hc
        · refine ⟨4, by norm_num, Or.inl ?_⟩
          unfold stateTrace
          rw [hrun, List.filterMap_append, List.filterMap_append,
            filterMap_errpair, hc]
          have hb : (bodyPrefix j 4).filterMap eventState = [St.Idle, St.Extracting, St.Initializing, St.Staging, St.Committing] := by
            simp [bodyPrefix, eventState]
          rw [hb]
          decide
        · refine ⟨4, by norm_num, Or.inr ?_⟩
          unfold stateTrace
          rw [hrun, List.filterMap_append, List.filterMap_append,
            filterMap_errpair, hc]
          have hb : (bodyPrefix j 4).filterMap eventState = [St.Idle, St.Extracting, St.Initializing, St.Staging, St.Committing] := by
            simp [bodyPrefix, eventState]
          rw [hb]
          decide
      · rcases cleanup_states (some d) w with hc | hc
        · refine ⟨5, by norm_num, Or.inl ?_⟩
          unfold stateTrace
          rw [hrun, List.filterMap_append, List.filterMap_append,
            filterMap_errpair, hc]
          have hb : (bodyPrefix j 5).filterMap eventState = [St.Idle, St.Extracting, St.Initializing, St.Staging, St.Committing, St.CreatingRemote] := by
            simp [bodyPrefix, eventState]
          rw [hb]
          decide
        · refine ⟨5, by norm_num, Or.inr ?_⟩
          unfold stateTrace
          rw [hrun, List.filterMap_append, List.filterMap_append,
            filterMap_errpair, hc]
          have hb : (bodyPrefix j 5).filterMap eventState = [St.Idle, St.Extracting, St.Initializing, St.Staging, St.Committing, St.CreatingRemote] := by
            simp [bodyPrefix, eventState]
          rw [hb]
          decide
      · rcases cleanup_states (some d) w with hc | hc
        · refine ⟨6, by norm_num, Or.inl ?_⟩
          unfold stateTrace
          rw [hrun, List.filterMap_append, List.filterMap_append,
            filterMap_errpair, hc]
          have hb : (bodyPrefix j 6).filterMap eventState = [St.Idle, St.Extracting, St.Initializing, St.Staging, St.Committing, St.CreatingRemote, St.Pushing] := by
            simp [bodyPrefix, eventState]
          rw [hb]
          decide
        · refine ⟨6, by norm_num, Or.inr ?_⟩
          unfold stateTrace
          rw [hrun, List.filterMap_append, List.filterMap_append,
            filterMap_errpair, hc]
          have hb : (bodyPrefix j 6).filterMap eventState = [St.Idle, St.Extracting, St.Initializing, St.Staging, St.Committing, St.CreatingRemote, St.Pushing] := by
            simp [bodyPrefix, eventState]
          rw [hb]
          decide
  have hnd : (stateTrace (run j w)).Nodup := by
    cases hse : stepError j w with
    | none =>
      rw [hok hse]
      decide
    | some e =>
      obtain ⟨k, hk, hca⟩ := herr e hse
      interval_cases k <;> rcases hca with hca | hca <;> rw [hca] <;> decide
  exact ⟨hok, herr, hnd⟩

/-- C2 witness: the all-success world passes through all nine states in the
spec's order. -/
theorem state_machine_shape_witness :
    stateTrace (run jobC worldOkC) = allStates :=
  (state_machine_shape jobC worldOkC).1 (by decide)

lemma setRm_mkdtemp (w : World) :
    (setRmtreeOk w).mkdtempResult = w.mkdtempResult := rfl

lemma setRm_init (w : World) :
    (setRmtreeOk w).initResult = w.initResult := rfl

lemma setRm_add (w : World) :
    (setRmtreeOk w).addResult = w.addResult := rfl

lemma setRm_commit (w : World) :
    (setRmtreeOk w).commitResult = w.commitResult := rfl

lemma setRm_createRemote (w : World) :
    (setRmtreeOk w).createRemoteResult = w.createRemoteResult := rfl

lemma setRm_push (w : World) :
    (setRmtreeOk w).pushResult = w.pushResult := rfl

lemma setRm_tempDirExists (w : World) :
    (setRmtreeOk w).tempDirExists = w.tempDirExists := rfl

lemma setRm_rmtree (w : World) :
    (setRmtreeOk w).rmtreeResult = Except.ok () := rfl

lemma extractStep_setRmtreeOk (j : Job) (w : World) :
    extractStep j (setRmtreeOk w) = extractStep j w := rfl

lemma createRepoStep_setRmtreeOk (w : World) :
    createRepoStep (setRmtreeOk w) = createRepoStep w := rfl

lemma stepError_setRmtreeOk (j : Job) (w : World) :
    stepError j (setRmtreeOk w) = stepError j w := by
  unfold stepError
  cases hmd : w.mkdtempResult with
  | error e => simp [runBody, setRm_mkdtemp, hmd]
  | ok d =>
    cases hex0 : extractStep j w with
    | error e =>
      simp [runBody, setRm_mkdtemp, extractStep_setRmtreeOk, hmd, hex0]
    | ok v1 =>
      cases hin : w.initResult with
      | error e =>
        simp [runBody, setRm_mkdtemp, extractStep_setRmtreeOk, setRm_init,
          hmd, hex0, hin]
      | ok v2 =>
        cases had : w.addResult with
        | error e =>
          simp [runBody, setRm_mkdtemp, extractStep_setRmtreeOk, setRm_init,
            setRm_add, hmd, hex0, hin, had]
        | ok v3 =>
          cases hco : w.commitResult with
          | error e =>
            simp [runBody, setRm_mkdtemp, extractStep_setRmtreeOk, setRm_init,
              setRm_add, setRm_commit, hmd, hex0, hin, had, hco]
          | ok v4 =>
            cases hcr : createRepoStep w with
            | error e =>
              simp [runBody, setRm_mkdtemp, extractStep_setRmtreeOk,
                setRm_init, setRm_add, setRm_commit, createRepoStep_setRmtreeOk,
                hmd, hex0, hin, had, hco, hcr]
            | ok url =>
              cases hre : w.createRemoteResult with
              | error e =>
                simp [runBody, setRm_mkdtemp, extractStep_setRmtreeOk,
                  setRm_init, setRm_add, setRm_commit,
                  createRepoStep_setRmtreeOk, setRm_createRemote,
                  hmd, hex0, hin, had, hco, hcr, hre]
              | ok v5 =>
                cases hpu : w.pushResult with
                | error e =>
                  simp [runBody, setRm_mkdtemp, extractStep_setRmtreeOk,
                    setRm_init, setRm_add, setRm_commit,
                    createRepoStep_setRmtreeOk, setRm_createRemote, setRm_push,
                    hmd, hex0, hin, had, hco, hcr, hre, hpu]
                | ok v6 =>
                  simp [runBody, setRm_mkdtemp, extractStep_setRmtreeOk,
                    setRm_init, setRm_add, setRm_commit,
                    createRepoStep_setRmtreeOk, setRm_createRemote, setRm_push,
                    hmd, hex0, hin, had, hco, hcr, hre, hpu]

lemma completions_errpair (e : String) :
    completions [Event.status (Msg.errorMsg e), Event.complete false e] =
      [(false, e)] := rfl

lemma warningCount_errpair (e : String) :
    warningCount [Event.status (Msg.errorMsg e), Event.complete false e] =
      0 := rfl

lemma warningCount_mid :
    warningCount [Event.progress 90, Event.status Msg.cleaningUp] = 0 := rfl

lemma warningCount_tail (m : String) :
    warningCount [Event.progress 100, Event.complete true m] = 0 := rfl

/-- C7: when deletion of the ephemeral working directory fails, the run's
terminal outcome is exactly the outcome of the same run with deletion
succeeding -- the cleanup failure is never reported as a job failure -- and
exactly one additional warning line appears in the status log. -/
theorem cleanup_failure_warning_only (j : Job) (w : World) (d e : String)
    (hmd : w.mkdtempResult = Except.ok d) (hex : w.tempDirExists = true)
    (hrm : w.rmtreeResult = Except.error e) :
    completions (run j w) = completions (run j (setRmtreeOk w))
  ∧ warningCount (run j w) = warningCount (run j (setRmtreeOk w)) + 1
  ∧ warningCount (run j (setRmtreeOk w)) = 0 := by
  cases hse : stepError j w with
  | none =>
    obtain ⟨d1, u1, hmd1, hcr1, hrun1⟩ := run_ok_shape j w hse
    obtain ⟨d2, u2, hmd2, hcr2, hrun2⟩ :=
      run_ok_shape j (setRmtreeOk w) ((stepError_setRmtreeOk j w).trans hse)
    rw [setRm_mkdtemp] at hmd2
    rw [hmd1] at hmd2
    rw [createRepoStep_setRmtreeOk] at hcr2
    rw [hcr1] at hcr2
    have hd : d2 = d1 := by injection hmd2 with h2; exact h2.symm
    have hu : u2 = u1 := by injection hcr2 with h2; exact h2.symm
    subst hd
    subst hu
    refine ⟨?_, ?_, ?_⟩
    · rw [hrun1, hrun2, completions_append, completions_append,
        completions_append, completions_append, completions_append,
        completions_append, completions_bodyPrefix, completions_cleanup,
        completions_cleanup]
    · rw [hrun1, hrun2, warningCount_append, warningCount_append,
        warningCount_append, warningCount_append, warningCount_append,
        warningCount_append, warningCount_bodyPrefix, warningCount_mid,
        warningCount_tail,
        warningCount_cleanup_error d2 w e hex hrm,
        warningCount_cleanup_okrm d2 (setRmtreeOk w) () (setRm_rmtree w)]
    · rw [hrun2, warningCount_append, warningCount_append,
        warningCount_append, warningCount_bodyPrefix, warningCount_mid,
        warningCount_tail,
        warningCount_cleanup_okrm d2 (setRmtreeOk w) () (setRm_rmtree w)]
  | some e0 =>
    have hse2 : stepError j (setRmtreeOk w) = some e0 :=
      (stepError_setRmtreeOk j w).trans hse
    rcases run_error_shape j w e0 hse with ⟨hmd0, hrun1, htd1⟩ |
      ⟨d1, k1, hmd1, hk11, hk16, htd1, hrun1⟩
    · rw [hmd] at hmd0
      exact absurd hmd0 (by simp)
    rcases run_error_shape j (setRmtreeOk w) e0 hse2 with ⟨hmd0, hrun2, htd2⟩ |
      ⟨d2, k2, hmd2, hk21, hk26, htd2, hrun2⟩
    · rw [setRm_mkdtemp, hmd] at hmd0
      exact absurd hmd0 (by simp)
    refine ⟨?_, ?_, ?_⟩
    · rw [hrun1, hrun2, completions_append, completions_append,
        completions_append, completions_append, completions_bodyPrefix,
        completions_bodyPrefix, completions_cleanup, completions_cleanup]
    · rw [hrun1, hrun2, warningCount_append, warningCount_append,
        warningCount_append, warningCount_append, warningCount_bodyPrefix,
        warningCount_bodyPrefix, warningCount_errpair,
        warningCount_cleanup_error d1 w e hex hrm,
        warningCount_cleanup_okrm d2 (setRmtreeOk w) () (setRm_rmtree w)]
    · rw [hrun2, warningCount_append, warningCount_append,
        warningCount_bodyPrefix, warningCount_errpair,
        warningCount_cleanup_okrm d2 (setRmtreeOk w) () (setRm_rmtree w)]

/-- C7 witness: the concrete rmtree-failure world has the same terminal
outcome as its rmtree-success counterpart, one extra warning line. -/
theorem cleanup_failure_warning_only_witness :
    completions (run jobC worldRmFailC) =
      completions (run jobC (setRmtreeOk worldRmFailC)) :=
  (cleanup_failure_warning_only jobC worldRmFailC "/tmp/wd" "locked"
    rfl rfl rfl).1
